import Mathlib

/-!
Verification of the hours-mcp billing core.

This file is a shallow embedding, in Lean 4, of the parts of the
hours-mcp repository that the billing claims are about:

* `internal/timeparse/parser.go` — date and period resolution;
* `internal/database/database.go` — the migration mechanism;
* the MCP tool handlers in the server package — `add_hours`,
  `bulk_add_hours`, `create_invoice`, `mark_time_entries_invoiced`.

Modelling conventions:

* A Go `time.Time` is modelled by the day number of its calendar date
  (days since 1970-01-01, proleptic Gregorian, as an `Int`).  All dates
  the program persists are formatted `YYYY-MM-DD`, and lexicographic
  order on that format agrees with day-number order, so SQL comparisons
  on date columns are modelled by `≤` on `Int`.  Time of day never
  influences the modelled behaviour.
* Go `t.AddDate(0, 0, n)` adds exactly `n` calendar days and is modelled
  as `t + n`; `AddDate` calls with a month component are modelled by
  `goAddDate`, which normalizes through the civil calendar exactly as
  `time.Date` does.
* Go `float64` quantities (hours, hourly rates, amounts) are modelled as
  rationals; the claims under verification concern which sums the code
  computes, not IEEE rounding.
* SQLite tables are modelled as lists of rows; `QueryRow` is `List.find?`
  (first matching row) and a `JOIN` is a list bind.  Row ids generated by
  `AUTOINCREMENT` are modelled as one more than the maximal existing id.
* Externally generated values (the wall clock, UUIDs, PDF-render
  success) are explicit parameters of the modelled handlers.
* Columns that only feed display strings (addresses, timestamps, notes,
  the PDF layout) are omitted: no modelled claim depends on them.
-/

namespace HoursMCP

/-! ## Calendar arithmetic (Go `time` package, dates only)

Day numbers count days since 1970-01-01; the conversions to and from
civil (year, month, day) triples follow the standard proleptic-Gregorian
algorithms, which is what Go's `time.Date` / `Date()` compute for UTC-like
fixed locations.  Day 0 (1970-01-01) was a Thursday, which anchors
`weekdayGo` (Go numbering: 0 = Sunday, …, 6 = Saturday). -/

/-- Civil (y, m, d) to days since 1970-01-01 (proleptic Gregorian). -/
def daysFromCivil (y m d : Int) : Int :=
  let y' := if m ≤ 2 then y - 1 else y
  let era := y'.ediv 400
  let yoe := y' - era * 400
  let mp := if m > 2 then m - 3 else m + 9
  let doy := (153 * mp + 2).ediv 5 + d - 1
  let doe := yoe * 365 + yoe.ediv 4 - yoe.ediv 100 + doy
  era * 146097 + doe - 719468

/-- Days since 1970-01-01 back to a civil (y, m, d) triple. -/
def civilFromDays (t : Int) : Int × Int × Int :=
  let z := t + 719468
  let era := z.ediv 146097
  let doe := z - era * 146097
  let yoe := (doe - doe.ediv 1460 + doe.ediv 36524 - doe.ediv 146096).ediv 365
  let y := yoe + era * 400
  let doy := doe - (365 * yoe + yoe.ediv 4 - yoe.ediv 100)
  let mp := (5 * doy + 2).ediv 153
  let d := doy - (153 * mp + 2).ediv 5 + 1
  let m := if mp < 10 then mp + 3 else mp - 9
  (if m ≤ 2 then y + 1 else y, m, d)

/-- Go `time.Date(y, m, d, …)` as a day number.  Month and day outside
their usual ranges are normalized, exactly as `time.Date` does
(e.g. month 0 is December of the previous year, day 0 the last day of
the previous month). -/
def goDate (y m d : Int) : Int :=
  let ny := y + (m - 1).ediv 12
  let nm := (m - 1).emod 12 + 1
  daysFromCivil ny nm 1 + (d - 1)

/-- Go `t.AddDate(0, months, days)`: shift the civil date and
renormalize, exactly as `time.Date` does. -/
def goAddDate (t months days : Int) : Int :=
  match civilFromDays t with
  | (y, m, d) => goDate y (m + months) (d + days)

/-- Go `t.Weekday()`: 0 = Sunday, …, 6 = Saturday.
Day 0 (1970-01-01) was a Thursday. -/
def weekdayGo (t : Int) : Int := (t + 4) % 7

/-- Leap year of the proleptic Gregorian calendar. -/
def isLeapYear (y : Int) : Bool :=
  (y % 4 == 0 && y % 100 != 0) || y % 400 == 0

/-- Number of days of month `m` (1–12) in year `y`. -/
def daysInMonth (y m : Int) : Int :=
  if m == 2 then (if isLeapYear y then 29 else 28)
  else if m == 4 || m == 6 || m == 9 || m == 11 then 30
  else 31

/-! ## `internal/timeparse/parser.go` -/

/-- `\w` of Go's regexp package: ASCII letters, digits and underscore. -/
def isWordChar (c : Char) : Bool := c.isAlphanum || c == '_'

/-- `\s` of Go's regexp package. -/
def isSpaceChar (c : Char) : Bool :=
  c == ' ' || c == '\t' || c == '\n' || c == '\x0c' || c == '\r'

/-- ASCII lowercasing of one character (`strings.ToLower`; the inputs
the model cares about are ASCII). -/
def toLowerChar (c : Char) : Char :=
  if 'A' ≤ c ∧ c ≤ 'Z' then Char.ofNat (c.toNat + 32) else c

/-- `strings.ToLower` on ASCII text. -/
def strLower (s : String) : String := String.mk (s.toList.map toLowerChar)

/-- `strings.TrimSpace` on ASCII text. -/
def strTrim (s : String) : String :=
  String.mk (((s.toList.dropWhile isSpaceChar).reverse.dropWhile
    isSpaceChar).reverse)

/-- Decimal digits to a number (most significant first). -/
def digitsToNat (cs : List Char) : Nat :=
  cs.foldl (fun a c => 10 * a + (c.toNat - 48)) 0

/-- Does `needle` occur as a contiguous substring (`strings.Contains`)? -/
def containsSub (needle : List Char) : List Char → Bool
  | [] => needle.isEmpty
  | c :: rest => needle.isPrefixOf (c :: rest) || containsSub needle rest

/-- A match of the regexp `(\w+)\s+(\d{4})` starting at the head of
`cs`: a maximal nonempty word run, nonempty whitespace, four digits
(`\w` and `\s` are disjoint, so the greedy runs never backtrack). -/
def monthYearAt (cs : List Char) : Option (String × String) :=
  let word := cs.takeWhile isWordChar
  if word.isEmpty then none
  else
    let rest := cs.drop word.length
    let sp := rest.takeWhile isSpaceChar
    if sp.isEmpty then none
    else
      match rest.drop sp.length with
      | a :: b :: c :: d :: _ =>
        if a.isDigit && b.isDigit && c.isDigit && d.isDigit then
          some (String.mk word, String.mk [a, b, c, d])
        else none
      | _ => none

/-- `regexp.MustCompile((\w+)\s+(\d{4})).FindStringSubmatch`: the
leftmost match wins. -/
def findMonthYear : List Char → Option (String × String)
  | [] => none
  | c :: rest =>
    match monthYearAt (c :: rest) with
    | some r => some r
    | none => findMonthYear rest

/-- `parseMonth`: the month-name table of the source (full names and
3-letter abbreviations; "may" serves as both). -/
def parseMonth (monthStr : String) : Option Int :=
  match strLower monthStr with
  | "january" => some 1
  | "february" => some 2
  | "march" => some 3
  | "april" => some 4
  | "may" => some 5
  | "june" => some 6
  | "july" => some 7
  | "august" => some 8
  | "september" => some 9
  | "october" => some 10
  | "november" => some 11
  | "december" => some 12
  | "jan" => some 1
  | "feb" => some 2
  | "mar" => some 3
  | "apr" => some 4
  | "jun" => some 6
  | "jul" => some 7
  | "aug" => some 8
  | "sep" => some 9
  | "oct" => some 10
  | "nov" => some 11
  | "dec" => some 12
  | _ => none

/-- Exactly `n` decimal digits (Go's fixed-width numeric layout items
`2006`, `01`, `02` require the full width). -/
def takeFixedDigits (n : Nat) (cs : List Char) : Option (Nat × List Char) :=
  let ds := cs.take n
  if ds.length == n && ds.all Char.isDigit then
    some (digitsToNat ds, cs.drop n)
  else none

/-- One or two decimal digits (Go's layout item `2`: two digits are
consumed when two are available). -/
def takeDay : List Char → Option (Nat × List Char)
  | [] => none
  | [a] => if a.isDigit then some (digitsToNat [a], []) else none
  | a :: b :: rest =>
    if a.isDigit then
      if b.isDigit then some (digitsToNat [a, b], rest)
      else some (digitsToNat [a], b :: rest)
    else none

/-- Consume an exact literal (layout separators like `-`, `/`, `, `). -/
def dropLit (lit cs : List Char) : Option (List Char) :=
  if lit.isPrefixOf cs then some (cs.drop lit.length) else none

/-- Full month names with their numbers, in `time` package order
(`ParseDate` lowercases its input first, and Go's name matching is
case-insensitive, so the lowercase forms are used). -/
def longMonthNames : List (String × Int) :=
  [("january", 1), ("february", 2), ("march", 3), ("april", 4),
   ("may", 5), ("june", 6), ("july", 7), ("august", 8),
   ("september", 9), ("october", 10), ("november", 11), ("december", 12)]

/-- Three-letter month names with their numbers. -/
def shortMonthNames : List (String × Int) :=
  [("jan", 1), ("feb", 2), ("mar", 3), ("apr", 4), ("may", 5), ("jun", 6),
   ("jul", 7), ("aug", 8), ("sep", 9), ("oct", 10), ("nov", 11), ("dec", 12)]

/-- Match a month name from the given table at the head of the input
(first name of the table that is a prefix, as Go's `lookup` does). -/
def matchMonthName (names : List (String × Int)) (cs : List Char) :
    Option (Int × List Char) :=
  names.findSome? fun p =>
    if p.1.toList.isPrefixOf cs then some (p.2, cs.drop p.1.toList.length)
    else none

/-- Range checks of Go `time.Parse` ("month out of range", "day out of
range"); a date that passes becomes its day number. -/
def validDate (y m d : Int) : Option Int :=
  if 1 ≤ m && m ≤ 12 && 1 ≤ d && d ≤ daysInMonth y m then
    some (daysFromCivil y m d)
  else none

/-- Layout `2006-01-02`. -/
def fmtISO (cs : List Char) : Option Int := do
  let (y, cs) ← takeFixedDigits 4 cs
  let cs ← dropLit ['-'] cs
  let (m, cs) ← takeFixedDigits 2 cs
  let cs ← dropLit ['-'] cs
  let (d, cs) ← takeFixedDigits 2 cs
  if cs.isEmpty then validDate y m d else none

/-- Layout `01/02/2006` (month first). -/
def fmtMMDD (cs : List Char) : Option Int := do
  let (m, cs) ← takeFixedDigits 2 cs
  let cs ← dropLit ['/'] cs
  let (d, cs) ← takeFixedDigits 2 cs
  let cs ← dropLit ['/'] cs
  let (y, cs) ← takeFixedDigits 4 cs
  if cs.isEmpty then validDate y m d else none

/-- Layout `02/01/2006` (day first). -/
def fmtDDMM (cs : List Char) : Option Int := do
  let (d, cs) ← takeFixedDigits 2 cs
  let cs ← dropLit ['/'] cs
  let (m, cs) ← takeFixedDigits 2 cs
  let cs ← dropLit ['/'] cs
  let (y, cs) ← takeFixedDigits 4 cs
  if cs.isEmpty then validDate y m d else none

/-- Layouts `January 2, 2006` and `Jan 2, 2006` (month name given by
the table argument). -/
def fmtMonthDY (names : List (String × Int)) (cs : List Char) : Option Int := do
  let (m, cs) ← matchMonthName names cs
  let cs ← dropLit [' '] cs
  let (d, cs) ← takeDay cs
  let cs ← dropLit [',', ' '] cs
  let (y, cs) ← takeFixedDigits 4 cs
  if cs.isEmpty then validDate y m d else none

/-- Layouts `2 January 2006` and `2 Jan 2006`. -/
def fmtDMonthY (names : List (String × Int)) (cs : List Char) : Option Int := do
  let (d, cs) ← takeDay cs
  let cs ← dropLit [' '] cs
  let (m, cs) ← matchMonthName names cs
  let cs ← dropLit [' '] cs
  let (y, cs) ← takeFixedDigits 4 cs
  if cs.isEmpty then validDate y m d else none

/-- The fixed, ordered format list of `ParseDate`. -/
def dateFormats : List (List Char → Option Int) :=
  [fmtISO, fmtMMDD, fmtDDMM,
   fmtMonthDY longMonthNames, fmtMonthDY shortMonthNames,
   fmtDMonthY longMonthNames, fmtDMonthY shortMonthNames]

/-- Try the formats in order; the first that matches wins. -/
def tryFormats (cs : List Char) : Option Int :=
  dateFormats.findSome? fun f => f cs

/-- `parseRelativeDate(dateStr, weekOffset)` against clock date `now`. -/
def parseRelativeDate (dateStr : String) (weekOffset now : Int) :
    Except String Int :=
  if containsSub "week".toList dateStr.toList then
    .ok (now + (-(weekdayGo now) + weekOffset * 7))
  else if containsSub "month".toList dateStr.toList then
    if weekOffset == 0 then
      match civilFromDays now with
      | (y, m, _) => .ok (goDate y m 1)
    else .ok (goAddDate now weekOffset 0)
  else .error ("unable to parse relative date: " ++ dateStr)

/-- `ParseDate` against clock date `now`. -/
def parseDate (dateStr0 : String) (now : Int) : Except String Int :=
  let dateStr := strLower (strTrim dateStr0)
  if dateStr == "today" then .ok now
  else if dateStr == "yesterday" then .ok (now - 1)
  else if dateStr == "tomorrow" then .ok (now + 1)
  else if "this ".toList.isPrefixOf dateStr.toList then
    parseRelativeDate dateStr 0 now
  else if "last ".toList.isPrefixOf dateStr.toList then
    parseRelativeDate dateStr (-1) now
  else if "next ".toList.isPrefixOf dateStr.toList then
    parseRelativeDate dateStr 1 now
  else
    match tryFormats dateStr.toList with
    | some t => .ok t
    | none => .error ("unable to parse date: " ++ dateStr0)

/-- `ParsePeriod` against clock date `now`: a `[start, end]` day range. -/
def parsePeriod (period0 : String) (now : Int) : Except String (Int × Int) :=
  let period := strLower (strTrim period0)
  if period == "this month" || period == "current month" then
    match civilFromDays now with
    | (y, m, _) =>
      let start := goDate y m 1
      .ok (start, goAddDate start 1 (-1))
  else if period == "last month" then
    match civilFromDays now with
    | (y, m, _) =>
      let start := goDate y (m - 1) 1
      .ok (start, goAddDate start 1 (-1))
  else if period == "this week" then
    let start := now - weekdayGo now
    .ok (start, start + 6)
  else if period == "last week" then
    let start := now - weekdayGo now - 7
    .ok (start, start + 6)
  else
    match findMonthYear period.toList with
    | some (monthName, yearStr) =>
      match parseMonth monthName with
      | none => .error ("invalid month: " ++ monthName)
      | some month =>
        let year : Int := digitsToNat yearStr.toList
        let start := goDate year month 1
        .ok (start, goAddDate start 1 (-1))
    | none => .error ("unable to parse period: " ++ period0)

/-- `getThisWeekDates`: the five weekdays Monday–Friday of the current
week, with Sunday mapped to weekday 7 so that the week starts Monday. -/
def getThisWeekDates (now : Int) : List Int :=
  let weekday := weekdayGo now
  let weekday := if weekday == 0 then 7 else weekday
  let monday := now + (1 - weekday)
  (List.range 5).map fun i => monday + (i : Int)

/-- `getLastWeekDates`: Monday–Friday of the previous week. -/
def getLastWeekDates (now : Int) : List Int :=
  let weekday := weekdayGo now
  let weekday := if weekday == 0 then 7 else weekday
  let lastMonday := now + (1 - weekday - 7)
  (List.range 5).map fun i => lastMonday + (i : Int)

/-! ## The ledger store

Row types carry the columns the modelled handlers read or write. -/

/-- A row of `clients`. -/
structure Client where
  id : Nat
  name : String
deriving DecidableEq, Repr

/-- A row of `contracts`. -/
structure Contract where
  id : Nat
  clientId : Nat
  contractNumber : String
  hourlyRate : Rat
  currency : String
  status : String
deriving DecidableEq, Repr

/-- A row of `time_entries` (`id` is a UUID string; `invoiceId = none`
is the unbilled state). -/
structure TimeEntry where
  id : String
  clientId : Nat
  contractId : Nat
  date : Int
  hours : Rat
  description : String
  contractRef : String
  invoiceId : Option Nat
deriving DecidableEq, Repr

/-- A row of `invoices`. -/
structure Invoice where
  id : Nat
  clientId : Nat
  invoiceNumber : String
  issueDate : Int
  dueDate : Int
  totalAmount : Rat
  status : String
  pdfPath : Option String
deriving DecidableEq, Repr

/-- The SQLite database.  `paymentClients` is the set of client ids
owning a `payment_details` row (only existence is ever branched on);
`businessInfo` is the `business_name` of the singleton `business_info`
row, when configured. -/
structure DB where
  clients : List Client
  contracts : List Contract
  timeEntries : List TimeEntry
  invoices : List Invoice
  paymentClients : List Nat
  businessInfo : Option String
deriving DecidableEq, Repr

/-- `Handler.getClientIDByName`: `SELECT id FROM clients WHERE name = ?`. -/
def getClientIDByName (db : DB) (name : String) : Option Nat :=
  (db.clients.find? fun c => c.name == name).map fun c => c.id

/-- The id `AUTOINCREMENT` assigns to the next `invoices` row. -/
def nextInvoiceId (db : DB) : Nat :=
  (db.invoices.map fun i => i.id).foldr max 0 + 1

/-- The unbilled-entry query of `create_invoice`:
`SELECT … FROM time_entries te JOIN contracts ct ON te.contract_id = ct.id
WHERE ct.client_id = ? AND te.date >= ? AND te.date <= ? AND
te.invoice_id IS NULL`, keeping the joined contract row (whose
`hourly_rate` is the rate read at consolidation time).  The `ORDER BY
te.date` of the source only affects presentation order and is not
modelled. -/
def unbilledEntriesInPeriod (db : DB) (clientID : Nat) (startD endD : Int) :
    List (TimeEntry × Contract) :=
  db.timeEntries.flatMap fun te =>
    db.contracts.filterMap fun ct =>
      if ct.id = te.contractId ∧ ct.clientId = clientID ∧
         startD ≤ te.date ∧ te.date ≤ endD ∧ te.invoiceId = none
      then some (te, ct) else none

/-- Two-digit zero padding for months and days. -/
def padNat2 (n : Int) : String :=
  if n < 10 then "0" ++ toString n else toString n

/-- Go `Format("200601")` of a day number. -/
def formatYearMonth (t : Int) : String :=
  match civilFromDays t with
  | (y, m, _) => toString y ++ padNat2 m

/-- Go `Format("2006-01-02")` of a day number. -/
def formatDateISO (t : Int) : String :=
  match civilFromDays t with
  | (y, m, d) => toString y ++ "-" ++ padNat2 m ++ "-" ++ padNat2 d

/-- `INV-<YYYYMM>-<8-char uuid suffix>`; the uuid suffix is an external
input of the model. -/
def mkInvoiceNumber (now : Int) (uuid8 : String) : String :=
  "INV-" ++ formatYearMonth now ++ "-" ++ uuid8

/-- Error exits of the `create_invoice` handler, in source order. -/
inductive CreateInvoiceError
  | clientNotFound
  | businessNotConfigured
  | paymentNotConfigured
  | invalidPeriod (msg : String)
  | clientLookupFailed
  | nothingToBill
  | renderFailed
deriving DecidableEq, Repr

/-- The structured result of a successful `create_invoice` call. -/
structure CreateInvoiceOk where
  invoiceNumber : String
  totalAmount : Rat
  totalHours : Rat
  pdfPath : String
deriving DecidableEq, Repr

/-- Arguments of `create_invoice` (`dueDays = 0` when the field is
omitted, since Go decodes a missing `int` field as zero). -/
structure CreateInvoiceArgs where
  clientName : String
  period : String
  dueDays : Int
deriving DecidableEq, Repr

/-- The per-entry `UPDATE time_entries SET invoice_id = ? WHERE id = ?`
loop of `create_invoice`, applied to every selected id. -/
def markSelected (invId : Nat) (selIds : List String) (te : TimeEntry) :
    TimeEntry :=
  if te.id ∈ selIds then { te with invoiceId := some invId } else te

/-- The `create_invoice` handler.  `now` is the wall-clock date, `uuid8`
the random invoice-number suffix, and `renderOk` tells whether the
external PDF renderer succeeds.  The returned `DB` is the committed
store: every error path returns the original `db`, which models
`defer tx.Rollback()` — nothing before `tx.Commit()` is visible outside
a successful call.  The user-downloads directory prefix of the PDF path
is environment-dependent and omitted. -/
def createInvoice (db : DB) (args : CreateInvoiceArgs) (now : Int)
    (uuid8 : String) (renderOk : Bool) :
    DB × Except CreateInvoiceError CreateInvoiceOk :=
  let dueDays := if args.dueDays = 0 then 30 else args.dueDays
  match getClientIDByName db args.clientName with
  | none => (db, .error .clientNotFound)
  | some clientID =>
    match db.businessInfo with
    | none => (db, .error .businessNotConfigured)
    | some _ =>
      if clientID ∈ db.paymentClients then
        match parsePeriod args.period now with
        | .error e => (db, .error (.invalidPeriod e))
        | .ok (startDate, endDate) =>
          match db.clients.find? fun c => c.id == clientID with
          | none => (db, .error .clientLookupFailed)
          | some _ =>
            let sel := unbilledEntriesInPeriod db clientID startDate endDate
            let totalHours : Rat := (sel.map fun p => p.1.hours).sum
            let totalAmount : Rat :=
              (sel.map fun p => p.1.hours * p.2.hourlyRate).sum
            if sel = [] then (db, .error .nothingToBill)
            else
              let invoiceNumber := mkInvoiceNumber now uuid8
              let issueDate := now
              let dueDate := issueDate + dueDays
              let invoiceID := nextInvoiceId db
              let newInvoice : Invoice :=
                { id := invoiceID, clientId := clientID,
                  invoiceNumber := invoiceNumber, issueDate := issueDate,
                  dueDate := dueDate, totalAmount := totalAmount,
                  status := "pending", pdfPath := none }
              let tx1 : DB := { db with invoices := db.invoices ++ [newInvoice] }
              let pdfPath := "invoice_" ++ formatDateISO issueDate ++ ".pdf"
              let selIds := sel.map fun p => p.1.id
              let tx2 : DB :=
                { tx1 with timeEntries :=
                    tx1.timeEntries.map (markSelected invoiceID selIds) }
              if renderOk then
                let tx3 : DB :=
                  { tx2 with invoices := tx2.invoices.map fun i =>
                      if i.id == invoiceID then { i with pdfPath := some pdfPath }
                      else i }
                (tx3, .ok { invoiceNumber := invoiceNumber,
                            totalAmount := totalAmount,
                            totalHours := totalHours, pdfPath := pdfPath })
              else (db, .error .renderFailed)
      else (db, .error .paymentNotConfigured)

/-! ## `mark_time_entries_invoiced` -/

/-- Error exits of the `mark_time_entries_invoiced` handler. -/
inductive MarkError
  | noEntryIds
  | invoiceNotFound
  | alreadyInvoiced (entryId : String) (invoiceNumber : String)
deriving DecidableEq, Repr

/-- `SELECT invoice_number FROM invoices WHERE id = ?`, with the scan
target left empty when the row is missing (the source ignores that
error). -/
def invoiceNumberOfId (db : DB) (invId : Nat) : String :=
  ((db.invoices.find? fun i => i.id == invId).map fun i => i.invoiceNumber).getD ""

/-- `UPDATE time_entries SET invoice_id = ? WHERE id = ?`. -/
def markOne (invId : Nat) (entryId : String) (te : TimeEntry) : TimeEntry :=
  if te.id == entryId then { te with invoiceId := some invId } else te

/-- The per-id loop of `mark_time_entries_invoiced`: not-found ids are
skipped; an entry that already has an invoice aborts the whole batch
(the original `db0` is returned, modelling the transaction rollback);
otherwise the entry is linked inside the transaction and counted. -/
def markLoop (db0 : DB) (invoiceID : Nat) :
    DB → Nat → List String → DB × Except MarkError Nat
  | tx, count, [] => (tx, .ok count)
  | tx, count, entryId :: rest =>
    match tx.timeEntries.find? fun te => te.id == entryId with
    | none => markLoop db0 invoiceID tx count rest
    | some te =>
      match te.invoiceId with
      | some cur =>
        (db0, .error (.alreadyInvoiced entryId (invoiceNumberOfId tx cur)))
      | none =>
        markLoop db0 invoiceID
          { tx with timeEntries := tx.timeEntries.map (markOne invoiceID entryId) }
          (count + 1) rest

/-- The `mark_time_entries_invoiced` handler; on success the count of
entries actually marked is returned. -/
def markTimeEntriesInvoiced (db : DB) (invoiceNumber : String)
    (entryIds : List String) : DB × Except MarkError Nat :=
  if entryIds = [] then (db, .error .noEntryIds)
  else
    match db.invoices.find? fun i => i.invoiceNumber == invoiceNumber with
    | none => (db, .error .invoiceNotFound)
    | some inv => markLoop db inv.id db 0 entryIds

/-! ## `add_hours` and `bulk_add_hours` -/

/-- Error exits of the `add_hours` handler. -/
inductive AddHoursError
  | contractNotFound (contractNumber : String)
  | contractNotActive (contractNumber : String) (status : String)
  | invalidDate (msg : String)
deriving DecidableEq, Repr

/-- The `add_hours` handler: the contract row is joined with its client
(`JOIN clients cl ON c.client_id = cl.id`, so a dangling client id also
surfaces as contract-not-found), the `active` status is checked, the
date defaults to the clock date, and one `time_entries` row is
inserted.  `newEntryId` is the externally generated UUID. -/
def addHours (db : DB) (contractNumber : String) (hours : Rat)
    (dateStr : String) (description : String) (now : Int)
    (newEntryId : String) : DB × Except AddHoursError String :=
  match (db.contracts.find? fun c => c.contractNumber == contractNumber).bind
      (fun ct => (db.clients.find? fun cl => cl.id == ct.clientId).map
        fun _ => ct) with
  | none => (db, .error (.contractNotFound contractNumber))
  | some ct =>
    if ct.status ≠ "active" then
      (db, .error (.contractNotActive contractNumber ct.status))
    else
      match (if dateStr = "" then Except.ok now else parseDate dateStr now) with
      | .error e => (db, .error (.invalidDate e))
      | .ok date =>
        let entry : TimeEntry :=
          { id := newEntryId, clientId := ct.clientId, contractId := ct.id,
            date := date, hours := hours, description := description,
            contractRef := contractNumber, invoiceId := none }
        ({ db with timeEntries := db.timeEntries ++ [entry] }, .ok newEntryId)

/-- One requested entry of `bulk_add_hours`. -/
structure BulkEntry where
  clientName : String
  hours : Rat
  date : String
  description : String
  contractRef : String
deriving DecidableEq, Repr

/-- Error exits of the `bulk_add_hours` handler. -/
inductive BulkAddError
  | noEntries
  | clientNotFound (name : String)
  | contractNotFound (ref : String)
  | invalidDate (msg : String)
deriving DecidableEq, Repr

/-- The per-entry loop of `bulk_add_hours`: the client is looked up by
name and the contract by number (`SELECT id FROM contracts WHERE
contract_number = ?` — the source checks neither the contract's status
nor that it belongs to the named client), the date is parsed, and a row
is inserted; any failure aborts the batch (rollback to `db0`).
`idGen` supplies the UUID of the `count`-th inserted entry. -/
def bulkAddLoop (db0 : DB) (now : Int) (idGen : Nat → String) :
    DB → Nat → List BulkEntry → DB × Except BulkAddError Nat
  | tx, count, [] => (tx, .ok count)
  | tx, count, entry :: rest =>
    match getClientIDByName db0 entry.clientName with
    | none => (db0, .error (.clientNotFound entry.clientName))
    | some clientID =>
      match tx.contracts.find? fun c => c.contractNumber == entry.contractRef with
      | none => (db0, .error (.contractNotFound entry.contractRef))
      | some ct =>
        match (if entry.date = "" then Except.ok now
               else parseDate entry.date now) with
        | .error e => (db0, .error (.invalidDate e))
        | .ok date =>
          let newEntry : TimeEntry :=
            { id := idGen count, clientId := clientID, contractId := ct.id,
              date := date, hours := entry.hours,
              description := entry.description,
              contractRef := entry.contractRef, invoiceId := none }
          bulkAddLoop db0 now idGen
            { tx with timeEntries := tx.timeEntries ++ [newEntry] }
            (count + 1) rest

/-- The `bulk_add_hours` handler; on success the count of inserted
entries is returned. -/
def bulkAddHours (db : DB) (entries : List BulkEntry) (now : Int)
    (idGen : Nat → String) : DB × Except BulkAddError Nat :=
  if entries = [] then (db, .error .noEntries)
  else bulkAddLoop db now idGen db 0 entries

/-! ## `internal/database/database.go`: the migration mechanism -/

/-- One named migration over a store of type `σ`. -/
structure Migration (σ : Type) where
  name : String
  apply : σ → Except String σ

/-- `runMigrations`: walk the migration list in order; a name already in
the persisted `migrations` log is skipped, otherwise the migration is
applied and its name recorded.  The first failing migration aborts. -/
def runMigrations {σ : Type} :
    List (Migration σ) → List String → σ → Except String (List String × σ)
  | [], log, s => .ok (log, s)
  | m :: rest, log, s =>
    if m.name ∈ log then runMigrations rest log s
    else
      match m.apply s with
      | .error e => .error e
      | .ok s' => runMigrations rest (log ++ [m.name]) s'

/-- A row of the pre-contract `clients` table: the legacy schema carried
per-client `hourly_rate` and `currency` columns (both `none` once the
rebuild migration has dropped them). -/
structure MigClient where
  id : Nat
  name : String
  hourlyRate : Option Rat
  currency : Option String
deriving DecidableEq, Repr

/-- A `time_entries` row as the structural migration sees it
(`contract_id` is nullable until backfilled). -/
structure MigEntry where
  id : String
  clientId : Nat
  contractId : Option Nat
deriving DecidableEq, Repr

/-- The store the concrete migrations operate on: the schema (column
names per table) plus the data the two structural migrations touch. -/
structure MigStore where
  tables : List (String × List String)
  clients : List MigClient
  contracts : List Contract
  entries : List MigEntry
deriving DecidableEq, Repr

/-- `PRAGMA table_info` scan: does the named column already exist? -/
def columnExists (tables : List (String × List String))
    (tableName columnName : String) : Bool :=
  ((tables.find? fun t => t.1 == tableName).map
    fun t => t.2.contains columnName).getD false

/-- `addColumnIfNotExists`: a no-op when the column is already present,
otherwise `ALTER TABLE … ADD COLUMN`.  The column type does not affect
the modelled schema state. -/
def addColumnIfNotExists (tableName columnName columnType : String)
    (s : MigStore) : MigStore :=
  let _ := columnType
  if columnExists s.tables tableName columnName then s
  else { s with tables := s.tables.map fun t =>
          if t.1 == tableName then (t.1, t.2 ++ [columnName]) else t }

/-- `restructureForContracts`: add `time_entries.contract_id`, then for
every client with a positive legacy rate create a synthetic
`LEGACY-<clientId>` active contract and attach the client's entries
that have no contract yet. -/
def restructureForContracts (s : MigStore) : Except String MigStore :=
  let s1 := addColumnIfNotExists "time_entries" "contract_id" "INTEGER" s
  let legacy := s1.clients.filter fun c =>
    match c.hourlyRate with
    | some r => decide (0 < r)
    | none => false
  .ok <| legacy.foldl (fun acc c =>
    let contractID := (acc.contracts.map fun ct => ct.id).foldr max 0 + 1
    let newContract : Contract :=
      { id := contractID, clientId := c.id,
        contractNumber := "LEGACY-" ++ toString c.id,
        hourlyRate := c.hourlyRate.getD 0,
        currency := c.currency.getD "", status := "active" }
    { acc with
      contracts := acc.contracts ++ [newContract],
      entries := acc.entries.map fun te =>
        if te.clientId == c.id && te.contractId == none then
          { te with contractId := some contractID }
        else te }) s1

/-- Column list of the rebuilt `clients` table (rate fields removed). -/
def rebuiltClientsColumns : List String :=
  ["id", "name", "address", "city", "state", "zip_code", "country",
   "created_at", "updated_at"]

/-- `removeRateConstraintsFromClients`: rebuild `clients` without the
rate columns, copying every remaining column's data. -/
def removeRateConstraintsFromClients (s : MigStore) : Except String MigStore :=
  .ok { s with
    tables := s.tables.map fun t =>
      if t.1 == "clients" then (t.1, rebuiltClientsColumns) else t,
    clients := s.clients.map fun c =>
      { c with hourlyRate := none, currency := none } }

/-- The ordered migration list of `runMigrations` in the source. -/
def hoursMigrations : List (Migration MigStore) :=
  [ { name := "add_contract_ref_to_time_entries",
      apply := fun s => .ok (addColumnIfNotExists "time_entries" "contract_ref" "TEXT" s) },
    { name := "add_title_to_recipients",
      apply := fun s => .ok (addColumnIfNotExists "recipients" "title" "TEXT" s) },
    { name := "add_phone_to_recipients",
      apply := fun s => .ok (addColumnIfNotExists "recipients" "phone" "TEXT" s) },
    { name := "add_address_to_clients",
      apply := fun s => .ok
        (addColumnIfNotExists "clients" "country" "TEXT"
          (addColumnIfNotExists "clients" "zip_code" "TEXT"
            (addColumnIfNotExists "clients" "state" "TEXT"
              (addColumnIfNotExists "clients" "city" "TEXT"
                (addColumnIfNotExists "clients" "address" "TEXT" s))))) },
    { name := "restructure_for_contracts", apply := restructureForContracts },
    { name := "remove_rate_constraints_from_clients",
      apply := removeRateConstraintsFromClients } ]

/-! ## Concrete stores used by the witness theorems

`exDB` is the scenario of the specification: client "Acme" with active
contract "AC-1" at 100/h and two unbilled January-2024 entries of 2 and
3 hours. -/

/-- The Monday-aligned week start the natural-language entry variant
computes: ISO weekday, Sunday mapped to 7 so that the week starts on
Monday. -/
def mondayOfWeek (now : Int) : Int :=
  let weekday := weekdayGo now
  let weekday := if weekday == 0 then 7 else weekday
  now + (1 - weekday)

/-- Witness client. -/
def exClient : Client := { id := 1, name := "Acme" }

/-- Witness contract (active, rate 100). -/
def exContract : Contract :=
  { id := 1, clientId := 1, contractNumber := "AC-1", hourlyRate := 100,
    currency := "USD", status := "active" }

/-- Witness entry: 2 hours on 2024-01-05, unbilled. -/
def exEntry1 : TimeEntry :=
  { id := "e1", clientId := 1, contractId := 1, date := daysFromCivil 2024 1 5,
    hours := 2, description := "api work", contractRef := "AC-1",
    invoiceId := none }

/-- Witness entry: 3 hours on 2024-01-10, unbilled. -/
def exEntry2 : TimeEntry :=
  { id := "e2", clientId := 1, contractId := 1, date := daysFromCivil 2024 1 10,
    hours := 3, description := "review", contractRef := "AC-1",
    invoiceId := none }

/-- The witness store. -/
def exDB : DB :=
  { clients := [exClient], contracts := [exContract],
    timeEntries := [exEntry1, exEntry2], invoices := [],
    paymentClients := [1], businessInfo := some "Solo LLC" }

/-- Witness `create_invoice` arguments (due days omitted). -/
def exArgs : CreateInvoiceArgs :=
  { clientName := "Acme", period := "january 2024", dueDays := 0 }

/-- Witness clock date: 2024-02-01. -/
def exNow : Int := daysFromCivil 2024 2 1

/-- The result of the witness `create_invoice` run. -/
def exOut : DB × Except CreateInvoiceError CreateInvoiceOk :=
  createInvoice exDB exArgs exNow "aaaabbbb" true

/-- The store committed by the witness run. -/
def exDBAfter : DB := exOut.1

/-- The payload of the witness run (the run succeeds, so the fallback
arm is never taken). -/
def exRes : CreateInvoiceOk :=
  match exOut.2 with
  | .ok r => r
  | .error _ =>
    { invoiceNumber := "", totalAmount := 0, totalHours := 0, pdfPath := "" }

/-- Store for the C5 witnesses: invoice INV-A (id 1). -/
def exInvA : Invoice :=
  { id := 1, clientId := 1, invoiceNumber := "INV-A", issueDate := 0,
    dueDate := 30, totalAmount := 0, status := "pending", pdfPath := none }

/-- Store for the C5 witnesses: invoice INV-B (id 2). -/
def exInvB : Invoice :=
  { id := 2, clientId := 1, invoiceNumber := "INV-B", issueDate := 0,
    dueDate := 30, totalAmount := 0, status := "pending", pdfPath := none }

/-- C5 witness entry already linked to invoice INV-B. -/
def exEntryX : TimeEntry :=
  { id := "x", clientId := 1, contractId := 1, date := 0, hours := 1,
    description := "", contractRef := "AC-1", invoiceId := some 2 }

/-- C5 witness entry, unbilled. -/
def exEntryY : TimeEntry :=
  { id := "y", clientId := 1, contractId := 1, date := 0, hours := 1,
    description := "", contractRef := "AC-1", invoiceId := none }

/-- C5 witness store: two invoices, one conflicted and one free entry. -/
def exMarkDB : DB :=
  { clients := [exClient], contracts := [exContract],
    timeEntries := [exEntryX, exEntryY], invoices := [exInvA, exInvB],
    paymentClients := [1], businessInfo := some "Solo LLC" }

/-- C6 witness contract whose status is not `active`. -/
def exContractDone : Contract :=
  { id := 2, clientId := 1, contractNumber := "CN-2", hourlyRate := 80,
    currency := "USD", status := "completed" }

/-- C6 witness store: only the completed contract. -/
def exBulkDB : DB :=
  { clients := [exClient], contracts := [exContractDone], timeEntries := [],
    invoices := [], paymentClients := [], businessInfo := none }

/-- C6 witness bulk request against the completed contract. -/
def exBulkEntry : BulkEntry :=
  { clientName := "Acme", hours := 2, date := "", description := "",
    contractRef := "CN-2" }

/-- UUID generator for the C6 witness. -/
def exIdGen : Nat → String := fun n => "bulk-" ++ toString n

/-- C9 witness store: the pre-migration schema and a client without a
legacy rate. -/
def exMigStore : MigStore :=
  { tables :=
      [("clients", ["id", "name", "created_at", "updated_at"]),
       ("recipients", ["id", "client_id", "name", "email"]),
       ("time_entries", ["id", "client_id", "date", "hours", "description"])],
    clients := [{ id := 1, name := "Acme", hourlyRate := none, currency := none }],
    contracts := [],
    entries := [{ id := "e1", clientId := 1, contractId := none }] }

/-- First migration run over the C9 witness store. -/
def exMigOut : Except String (List String × MigStore) :=
  runMigrations hoursMigrations [] exMigStore

/-- Migration log after the first C9 witness run. -/
def exMigLog : List String :=
  match exMigOut with
  | .ok (log, _) => log
  | .error _ => []

/-- Store after the first C9 witness run. -/
def exMigStoreAfter : MigStore :=
  match exMigOut with
  | .ok (_, s) => s
  | .error _ => exMigStore

/-! ## Helper lemmas -/

/-- Subtracting the Go weekday always lands on a Sunday (Go weekday 0). -/
theorem emod7_eq_zero {a : Int} (b : Int) (h : a = 7 * b) : a % 7 = 0 := by
  subst h; rw [Int.mul_emod_right]

theorem emod7_eq_one {a : Int} (b : Int) (h : a = 1 + 7 * b) : a % 7 = 1 := by
  subst h; rw [Int.add_mul_emod_self_left]; norm_num

theorem weekdayGo_sub_self (now : Int) : weekdayGo (now - weekdayGo now) = 0 := by
  unfold weekdayGo
  exact emod7_eq_zero ((now + 4) / 7) (by omega)

/-- The Monday-aligned week start has Go weekday 1 (Monday). -/
theorem weekdayGo_mondayOfWeek (now : Int) : weekdayGo (mondayOfWeek now) = 1 := by
  unfold mondayOfWeek weekdayGo
  simp only [beq_iff_eq]
  by_cases hz : (now + 4) % 7 = 0
  · rw [if_pos hz]
    exact emod7_eq_one ((now + 4) / 7 - 1) (by omega)
  · rw [if_neg hz]
    exact emod7_eq_one ((now + 4) / 7) (by omega)

/-! ## Claim C7 -/

/-- Claim C7 is false on the code: with the clock on Wednesday
2024-01-10, `ParsePeriod("this week")` returns the range starting on
Sunday 2024-01-07 (Go weekday 0) — not on the Monday 2024-01-08 that
the natural-language variant `getThisWeekDates` starts from — because
the period branch subtracts Go's `Weekday()` (Sunday = 0) without the
Sunday-to-7 adjustment. -/
theorem claim_C7_counterexample :
    parsePeriod "this week" (daysFromCivil 2024 1 10) =
      .ok (daysFromCivil 2024 1 7, daysFromCivil 2024 1 13) ∧
    getThisWeekDates (daysFromCivil 2024 1 10) =
      [daysFromCivil 2024 1 8, daysFromCivil 2024 1 9, daysFromCivil 2024 1 10,
       daysFromCivil 2024 1 11, daysFromCivil 2024 1 12] ∧
    weekdayGo (daysFromCivil 2024 1 7) = 0 ∧
    daysFromCivil 2024 1 7 ≠ daysFromCivil 2024 1 8 := by
  refine ⟨rfl, by decide, by decide, by decide⟩

/-- Claim C7 (amended): for every clock date, `ParsePeriod("this
week")` / `("last week")` return a 7-day `[start, start+6]` range whose
start is the date minus its Go weekday — a Sunday in Go's numbering
(weekday 0), not a Monday — while the natural-language entry variant is
Monday-aligned: it returns exactly the 5 consecutive dates Monday
through Friday of the week computed with Sunday mapped to 7. -/
theorem claim_C7_week_alignment (now : Int) :
    parsePeriod "this week" now =
      .ok (now - weekdayGo now, now - weekdayGo now + 6) ∧
    parsePeriod "last week" now =
      .ok (now - weekdayGo now - 7, now - weekdayGo now - 7 + 6) ∧
    weekdayGo (now - weekdayGo now) = 0 ∧
    getThisWeekDates now =
      [mondayOfWeek now, mondayOfWeek now + 1, mondayOfWeek now + 2,
       mondayOfWeek now + 3, mondayOfWeek now + 4] ∧
    getLastWeekDates now =
      [mondayOfWeek now - 7, mondayOfWeek now - 6, mondayOfWeek now - 5,
       mondayOfWeek now - 4, mondayOfWeek now - 3] ∧
    weekdayGo (mondayOfWeek now) = 1 := by
  refine ⟨rfl, rfl, weekdayGo_sub_self now, ?_, ?_, weekdayGo_mondayOfWeek now⟩
  · simp [getThisWeekDates, mondayOfWeek, List.range_succ]
  · simp [getLastWeekDates, mondayOfWeek, List.range_succ]
    constructor <;> omega

/-! ## Claim C8 -/

/-- Claim C8: `ParseDate` tries its absolute formats in a fixed order
with `MM/DD/YYYY` before `DD/MM/YYYY` and the first matching format
wins; in particular the ambiguous input "02/01/2024" parses as
February 1, 2024 (not January 2, 2024). -/
theorem claim_C8_date_format_order :
    (∀ now : Int, parseDate "02/01/2024" now = .ok (daysFromCivil 2024 2 1)) ∧
    daysFromCivil 2024 2 1 ≠ daysFromCivil 2024 1 2 ∧
    (∀ (cs : List Char) (d : Int), fmtISO cs = none → fmtMMDD cs = some d →
      tryFormats cs = some d) := by
  refine ⟨fun _ => rfl, by decide, fun cs d h1 h2 => ?_⟩
  simp [tryFormats, dateFormats, List.findSome?]
  rw [h1, h2]

/-- Witness for C8 at the ambiguous input: the ISO format rejects
"02/01/2024", the `MM/DD/YYYY` format accepts it as February 1, and the
ordered format list therefore returns February 1. -/
theorem claim_C8_witness :
    tryFormats "02/01/2024".toList = some (daysFromCivil 2024 2 1) :=
  claim_C8_date_format_order.2.2 _ _ rfl rfl

/-! ## Lemmas about `unbilledEntriesInPeriod` and `createInvoice` -/

/-- Membership in the unbilled-entry query result, unfolded to the
row-level join and filter conditions. -/
theorem mem_unbilled {db : DB} {cid : Nat} {s e : Int} {p : TimeEntry × Contract} :
    p ∈ unbilledEntriesInPeriod db cid s e ↔
      p.1 ∈ db.timeEntries ∧ p.2 ∈ db.contracts ∧ p.2.id = p.1.contractId ∧
      p.2.clientId = cid ∧ s ≤ p.1.date ∧ p.1.date ≤ e ∧ p.1.invoiceId = none := by
  obtain ⟨te, ct⟩ := p
  simp only [unbilledEntriesInPeriod, List.mem_flatMap, List.mem_filterMap]
  constructor
  · rintro ⟨te', hte', ct', hct', hif⟩
    split at hif
    · rename_i hcond
      injection hif with h
      injection h with hA hB
      subst hA; subst hB
      exact ⟨hte', hct', hcond.1, hcond.2.1, hcond.2.2.1, hcond.2.2.2.1,
        hcond.2.2.2.2⟩
    · exact absurd hif (by simp)
  · rintro ⟨h1, h2, h3, h4, h5, h6, h7⟩
    exact ⟨te, h1, ct, h2, by rw [if_pos ⟨h3, h4, h5, h6, h7⟩]⟩

/-- Inversion of a successful `create_invoice` run: all precondition
checks passed, the selection was nonempty, the render succeeded, the
returned totals are the sums over the selection, only the invoice and
time-entry tables changed, every selected entry was linked, and the
inserted invoice row carries the computed totals and dates. -/
theorem createInvoice_ok_inv {db db' : DB} {args : CreateInvoiceArgs} {now : Int}
    {u8 : String} {renderOk : Bool} {res : CreateInvoiceOk}
    (h : createInvoice db args now u8 renderOk = (db', .ok res)) :
    ∃ cid startD endD,
      getClientIDByName db args.clientName = some cid ∧
      db.businessInfo.isSome = true ∧
      cid ∈ db.paymentClients ∧
      parsePeriod args.period now = .ok (startD, endD) ∧
      unbilledEntriesInPeriod db cid startD endD ≠ [] ∧
      renderOk = true ∧
      res.totalHours =
        ((unbilledEntriesInPeriod db cid startD endD).map fun p => p.1.hours).sum ∧
      res.totalAmount =
        ((unbilledEntriesInPeriod db cid startD endD).map
          fun p => p.1.hours * p.2.hourlyRate).sum ∧
      res.invoiceNumber = mkInvoiceNumber now u8 ∧
      db'.clients = db.clients ∧
      db'.contracts = db.contracts ∧
      db'.paymentClients = db.paymentClients ∧
      db'.businessInfo = db.businessInfo ∧
      db'.timeEntries = db.timeEntries.map
        (markSelected (nextInvoiceId db)
          ((unbilledEntriesInPeriod db cid startD endD).map fun p => p.1.id)) ∧
      (∃ inv, inv ∈ db'.invoices ∧
        inv.id = nextInvoiceId db ∧ inv.clientId = cid ∧
        inv.invoiceNumber = mkInvoiceNumber now u8 ∧
        inv.issueDate = now ∧
        inv.dueDate = now + (if args.dueDays = 0 then 30 else args.dueDays) ∧
        inv.totalAmount = res.totalAmount ∧ inv.status = "pending") := by
  unfold createInvoice at h
  set dd : Int := if args.dueDays = 0 then 30 else args.dueDays with hdd
  simp only [] at h
  split at h
  · simp at h
  rename_i cid hcid
  split at h
  · simp at h
  rename_i bn hbn
  split at h
  case isFalse => simp at h
  rename_i hpay
  split at h
  · simp at h
  rename_i startD endD hper
  split at h
  · simp at h
  rename_i c hc
  split at h
  · simp at h
  rename_i hsel
  split at h
  case isFalse => simp at h
  rename_i hrok
  injection h with hdb hres
  injection hres with hres
  subst hdb
  subst hres
  refine ⟨cid, startD, endD, hcid, by rw [hbn]; rfl, hpay, hper, hsel, hrok,
    rfl, rfl, rfl, rfl, rfl, rfl, rfl, rfl, ?_⟩
  refine ⟨_, List.mem_map_of_mem _
      (List.mem_append_right _ (List.mem_singleton_self _)),
    ?_, ?_, ?_, ?_, ?_, ?_, ?_⟩ <;> simp

/-- The by-id client lookup of `create_invoice` cannot fail once the
by-name lookup has produced that id. -/
theorem find_id_of_getClientIDByName {db : DB} {name : String} {cid : Nat}
    (h : getClientIDByName db name = some cid) :
    ∃ c, db.clients.find? (fun x => x.id == cid) = some c := by
  unfold getClientIDByName at h
  cases hf : db.clients.find? fun c => c.name == name with
  | none => rw [hf] at h; simp at h
  | some c =>
    rw [hf] at h
    simp at h
    have hmem := List.mem_of_find?_eq_some hf
    have hs : (db.clients.find? fun x => x.id == cid).isSome := by
      rw [List.find?_isSome]
      exact ⟨c, hmem, by simp [h]⟩
    obtain ⟨c', hc'⟩ := Option.isSome_iff_exists.mp hs
    exact ⟨c', hc'⟩

/-- Forward evaluation of `create_invoice` when the precondition checks
pass but the unbilled selection is empty: the nothing-to-bill error,
with the store returned unchanged. -/
theorem createInvoice_nothing_eq {db : DB} {args : CreateInvoiceArgs}
    {now : Int} {u8 : String} {renderOk : Bool} {cid : Nat} {bn : String}
    {startD endD : Int}
    (hcid : getClientIDByName db args.clientName = some cid)
    (hbn : db.businessInfo = some bn)
    (hpay : cid ∈ db.paymentClients)
    (hper : parsePeriod args.period now = .ok (startD, endD))
    (hsel : unbilledEntriesInPeriod db cid startD endD = []) :
    createInvoice db args now u8 renderOk = (db, .error .nothingToBill) := by
  obtain ⟨c, hc⟩ := find_id_of_getClientIDByName hcid
  unfold createInvoice
  simp [hcid, hbn, hper, hpay, hc, hsel]

/-- Forward evaluation of `create_invoice` when everything up to the
PDF render succeeds but the render fails: the render error, with the
store returned unchanged (transaction rollback). -/
theorem createInvoice_renderFail_eq {db : DB} {args : CreateInvoiceArgs}
    {now : Int} {u8 : String} {cid : Nat} {bn : String} {startD endD : Int}
    (hcid : getClientIDByName db args.clientName = some cid)
    (hbn : db.businessInfo = some bn)
    (hpay : cid ∈ db.paymentClients)
    (hper : parsePeriod args.period now = .ok (startD, endD))
    (hsel : unbilledEntriesInPeriod db cid startD endD ≠ []) :
    createInvoice db args now u8 false = (db, .error .renderFailed) := by
  obtain ⟨c, hc⟩ := find_id_of_getClientIDByName hcid
  unfold createInvoice
  simp [hcid, hbn, hper, hpay, hc, hsel]

/-- After the selected entries are linked, a repeat of the unbilled
query over the same client and period is empty. -/
theorem unbilled_marked_empty (db db' : DB) (cid : Nat) (s e : Int) (invId : Nat)
    (hct : db'.contracts = db.contracts)
    (hte : db'.timeEntries = db.timeEntries.map
      (markSelected invId
        ((unbilledEntriesInPeriod db cid s e).map fun p => p.1.id))) :
    unbilledEntriesInPeriod db' cid s e = [] := by
  rw [List.eq_nil_iff_forall_not_mem]
  rintro ⟨te', ct'⟩ hmem
  rw [mem_unbilled] at hmem
  obtain ⟨hte', hct', h3, h4, h5, h6, h7⟩ := hmem
  rw [hte] at hte'
  obtain ⟨te, hteMem, hmap⟩ := List.mem_map.mp hte'
  by_cases hid : te.id ∈ (unbilledEntriesInPeriod db cid s e).map fun p => p.1.id
  · rw [← hmap] at h7
    unfold markSelected at h7
    rw [if_pos hid] at h7
    simp at h7
  · have hte'eq : te' = te := by
      have hmap2 := hmap
      unfold markSelected at hmap2
      rw [if_neg hid] at hmap2
      exact hmap2.symm
    subst hte'eq
    apply hid
    rw [List.mem_map]
    refine ⟨(te', ct'), ?_, rfl⟩
    rw [mem_unbilled]
    exact ⟨hteMem, hct ▸ hct', h3, h4, h5, h6, h7⟩

/-! ## Claim C1 -/

/-- Claim C1: on every successful `create_invoice` call, the total
amount stored on the created invoice row equals the sum, over the
selected unbilled entries of the resolved period, of hours times the
joined contract's current hourly rate, and the reported total hours
equals the sum of those entries' hours. -/
theorem claim_C1_invoice_totals {db db' : DB} {args : CreateInvoiceArgs}
    {now : Int} {u8 : String} {renderOk : Bool} {res : CreateInvoiceOk}
    (h : createInvoice db args now u8 renderOk = (db', .ok res)) :
    ∃ cid startD endD,
      getClientIDByName db args.clientName = some cid ∧
      parsePeriod args.period now = .ok (startD, endD) ∧
      res.totalHours =
        ((unbilledEntriesInPeriod db cid startD endD).map fun p => p.1.hours).sum ∧
      res.totalAmount =
        ((unbilledEntriesInPeriod db cid startD endD).map
          fun p => p.1.hours * p.2.hourlyRate).sum ∧
      ∃ inv, inv ∈ db'.invoices ∧ inv.invoiceNumber = res.invoiceNumber ∧
        inv.totalAmount =
          ((unbilledEntriesInPeriod db cid startD endD).map
            fun p => p.1.hours * p.2.hourlyRate).sum := by
  obtain ⟨cid, s, e, hcid, _, _, hper, _, _, hth, hta, hnum, _, _, _, _, _,
    inv, hmem, _, _, hinum, _, _, hitot, _⟩ := createInvoice_ok_inv h
  exact ⟨cid, s, e, hcid, hper, hth, hta, inv, hmem,
    by rw [hinum, hnum], by rw [hitot, hta]⟩

/-- Witness for C1: the specification scenario (two entries of 2 h and
3 h at rate 100 over January 2024) run at 2024-02-01. -/
theorem claim_C1_witness :
    ∃ cid startD endD,
      getClientIDByName exDB exArgs.clientName = some cid ∧
      parsePeriod exArgs.period exNow = .ok (startD, endD) ∧
      exRes.totalHours =
        ((unbilledEntriesInPeriod exDB cid startD endD).map fun p => p.1.hours).sum ∧
      exRes.totalAmount =
        ((unbilledEntriesInPeriod exDB cid startD endD).map
          fun p => p.1.hours * p.2.hourlyRate).sum ∧
      ∃ inv, inv ∈ exDBAfter.invoices ∧ inv.invoiceNumber = exRes.invoiceNumber ∧
        inv.totalAmount =
          ((unbilledEntriesInPeriod exDB cid startD endD).map
            fun p => p.1.hours * p.2.hourlyRate).sum :=
  @claim_C1_invoice_totals exDB exDBAfter exArgs exNow "aaaabbbb" true exRes rfl

/-! ## Claim C2 -/

/-- Claim C2: after a successful `create_invoice`, every consolidated
entry has its `invoice_id` set to the new invoice, and the unbilled
query for the same client and period on the committed store is empty —
consolidation bills each entry at most once. -/
theorem claim_C2_at_most_once {db db' : DB} {args : CreateInvoiceArgs}
    {now : Int} {u8 : String} {renderOk : Bool} {res : CreateInvoiceOk}
    (h : createInvoice db args now u8 renderOk = (db', .ok res)) :
    ∃ cid startD endD,
      getClientIDByName db args.clientName = some cid ∧
      parsePeriod args.period now = .ok (startD, endD) ∧
      (∀ p ∈ unbilledEntriesInPeriod db cid startD endD,
        ∀ te ∈ db'.timeEntries, te.id = p.1.id →
          te.invoiceId = some (nextInvoiceId db)) ∧
      unbilledEntriesInPeriod db' cid startD endD = [] := by
  obtain ⟨cid, s, e, hcid, _, _, hper, _, _, _, _, _, _, hct, _, _, hte, _⟩ :=
    createInvoice_ok_inv h
  refine ⟨cid, s, e, hcid, hper, ?_,
    unbilled_marked_empty db db' cid s e _ hct hte⟩
  intro p hp te' hte' hid
  rw [hte] at hte'
  obtain ⟨te, hmem, hmap⟩ := List.mem_map.mp hte'
  have hidmem : te.id ∈ (unbilledEntriesInPeriod db cid s e).map fun q => q.1.id := by
    rw [List.mem_map]
    have hsame : te'.id = te.id := by
      have hmap2 := hmap
      unfold markSelected at hmap2
      split at hmap2 <;> rw [← hmap2]
    exact ⟨p, hp, by rw [← hsame, hid]⟩
  have hmap2 := hmap
  unfold markSelected at hmap2
  rw [if_pos hidmem] at hmap2
  rw [← hmap2]

/-- Witness for C2 on the specification scenario. -/
theorem claim_C2_witness :
    ∃ cid startD endD,
      getClientIDByName exDB exArgs.clientName = some cid ∧
      parsePeriod exArgs.period exNow = .ok (startD, endD) ∧
      (∀ p ∈ unbilledEntriesInPeriod exDB cid startD endD,
        ∀ te ∈ exDBAfter.timeEntries, te.id = p.1.id →
          te.invoiceId = some (nextInvoiceId exDB)) ∧
      unbilledEntriesInPeriod exDBAfter cid startD endD = [] :=
  @claim_C2_at_most_once exDB exDBAfter exArgs exNow "aaaabbbb" true exRes rfl

/-! ## Claim C3 -/

/-- Claim C3: when the unbilled query is empty, `create_invoice` fails
with the nothing-to-bill error and the store is unchanged; in
particular an immediate second call for the same client and period,
after a successful one, fails this way because all entries are then
linked. -/
theorem claim_C3_nothing_to_bill :
    (∀ (db : DB) (args : CreateInvoiceArgs) (now : Int) (u8 : String)
       (renderOk : Bool) (cid : Nat) (bn : String) (startD endD : Int),
      getClientIDByName db args.clientName = some cid →
      db.businessInfo = some bn →
      cid ∈ db.paymentClients →
      parsePeriod args.period now = .ok (startD, endD) →
      unbilledEntriesInPeriod db cid startD endD = [] →
      createInvoice db args now u8 renderOk = (db, .error .nothingToBill)) ∧
    (∀ (db db' : DB) (args : CreateInvoiceArgs) (now : Int) (u8 u8b : String)
       (res : CreateInvoiceOk) (renderOk2 : Bool),
      createInvoice db args now u8 true = (db', .ok res) →
      createInvoice db' args now u8b renderOk2 = (db', .error .nothingToBill)) := by
  constructor
  · intro db args now u8 renderOk cid bn startD endD hcid hbn hpay hper hsel
    exact createInvoice_nothing_eq hcid hbn hpay hper hsel
  · intro db db' args now u8 u8b res renderOk2 h
    obtain ⟨cid, s, e, hcid, hbiSome, hpay, hper, _, _, _, _, _, hcl, hct, hpc,
      hbi, hte, _⟩ := createInvoice_ok_inv h
    obtain ⟨bn, hbn⟩ := Option.isSome_iff_exists.mp hbiSome
    have hcid' : getClientIDByName db' args.clientName = some cid := by
      unfold getClientIDByName at hcid ⊢
      rw [hcl]; exact hcid
    have hempty := unbilled_marked_empty db db' cid s e (nextInvoiceId db) hct hte
    exact createInvoice_nothing_eq hcid' (by rw [hbi]; exact hbn)
      (by rw [hpc]; exact hpay) hper hempty

/-- Witness for C3: March 2024 has no entries, so the first call
already fails with nothing-to-bill; and a second January-2024 call on
the store committed by the successful witness run also fails with
nothing-to-bill, leaving the store untouched both times. -/
theorem claim_C3_witness :
    createInvoice exDB { exArgs with period := "march 2024" } exNow "cccc0000" true =
      (exDB, .error .nothingToBill) ∧
    createInvoice exDBAfter exArgs exNow "bbbbcccc" true =
      (exDBAfter, .error .nothingToBill) :=
  ⟨claim_C3_nothing_to_bill.1 exDB _ exNow "cccc0000" true 1 "Solo LLC"
      (daysFromCivil 2024 3 1) (daysFromCivil 2024 3 31) rfl rfl (by decide) rfl rfl,
   claim_C3_nothing_to_bill.2 exDB exDBAfter exArgs exNow "aaaabbbb" "bbbbcccc"
     exRes true rfl⟩

/-! ## Claim C4 -/

/-- Claim C4: if the PDF render fails, the whole `create_invoice`
transaction rolls back — the call returns the untouched original store
with a render error, so no invoice row and no entry linkage survive.
The hypothesis states that the same call succeeds when the render
succeeds, i.e. the render is the only failing step. -/
theorem claim_C4_render_rollback {db db' : DB} {args : CreateInvoiceArgs}
    {now : Int} {u8 : String} {res : CreateInvoiceOk}
    (h : createInvoice db args now u8 true = (db', .ok res)) :
    createInvoice db args now u8 false = (db, .error .renderFailed) := by
  obtain ⟨cid, s, e, hcid, hbiSome, hpay, hper, hsel, _⟩ := createInvoice_ok_inv h
  obtain ⟨bn, hbn⟩ := Option.isSome_iff_exists.mp hbiSome
  exact createInvoice_renderFail_eq hcid hbn hpay hper hsel

/-- Witness for C4 on the specification scenario. -/
theorem claim_C4_witness :
    createInvoice exDB exArgs exNow "aaaabbbb" false = (exDB, .error .renderFailed) :=
  @claim_C4_render_rollback exDB exDBAfter exArgs exNow "aaaabbbb" exRes rfl

/-! ## Claim C10 -/

/-- Claim C10: `due_days = 0` (the omitted-field encoding) is treated
exactly like the default 30 — the whole call behaves identically to one
with `due_days = 30`, and any invoice it creates is due 30 days after
its issue date, so a same-day due date cannot be requested this way. -/
theorem claim_C10_due_days_default {db : DB} {args : CreateInvoiceArgs}
    {now : Int} {u8 : String} {renderOk : Bool}
    (hd : args.dueDays = 0) :
    createInvoice db args now u8 renderOk =
      createInvoice db { args with dueDays := 30 } now u8 renderOk ∧
    (∀ (db' : DB) (res : CreateInvoiceOk),
      createInvoice db args now u8 renderOk = (db', .ok res) →
      ∃ inv, inv ∈ db'.invoices ∧ inv.invoiceNumber = mkInvoiceNumber now u8 ∧
        inv.issueDate = now ∧ inv.dueDate = now + 30) := by
  constructor
  · unfold createInvoice
    rw [hd]
    norm_num
  · intro db' res h
    obtain ⟨cid, s, e, _, _, _, _, _, _, _, _, _, _, _, _, _, _,
      inv, hmem, _, _, hinum, hiss, hdue, _, _⟩ := createInvoice_ok_inv h
    rw [hd] at hdue
    norm_num at hdue
    exact ⟨inv, hmem, hinum, hiss, hdue⟩

/-- Witness for C10: the witness arguments omit `due_days` (zero), and
the call coincides with an explicit `due_days = 30` call; the created
invoice is due 2024-03-02, thirty days after issue. -/
theorem claim_C10_witness :
    (createInvoice exDB exArgs exNow "aaaabbbb" true =
      createInvoice exDB { exArgs with dueDays := 30 } exNow "aaaabbbb" true) ∧
    (∀ (db' : DB) (res : CreateInvoiceOk),
      createInvoice exDB exArgs exNow "aaaabbbb" true = (db', Except.ok res) →
      ∃ inv, inv ∈ db'.invoices ∧ inv.invoiceNumber = mkInvoiceNumber exNow "aaaabbbb" ∧
        inv.issueDate = exNow ∧ inv.dueDate = exNow + 30) :=
  @claim_C10_due_days_default exDB exArgs exNow "aaaabbbb" true rfl

/-! ## Claim C5 -/

theorem markOne_id (invId : Nat) (mid : String) (te : TimeEntry) :
    (markOne invId mid te).id = te.id := by
  unfold markOne; split <;> rfl

/-- `find?` by entry id commutes with the per-id marking map, because
marking preserves ids. -/
theorem find?_map_markOne (l : List TimeEntry) (invId : Nat) (mid targetId : String) :
    (l.map (markOne invId mid)).find? (fun te => te.id == targetId) =
      (l.find? (fun te => te.id == targetId)).map (markOne invId mid) := by
  induction l with
  | nil => rfl
  | cons a l ih =>
    simp only [List.map_cons, List.find?_cons, markOne_id]
    by_cases hpa : (a.id == targetId) = true
    · simp [hpa]
    · simp [hpa, ih]

/-- If some id in the batch names an entry that is already invoiced in
the original store, the marking loop aborts with a conflict error and
returns the original store (rollback), no matter which entries were
skipped or marked before it. -/
theorem markLoop_conflict {db0 : DB} {invId : Nat} :
    ∀ (ids : List String) (tx : DB) (count : Nat),
    (∀ eid te0, db0.timeEntries.find? (fun te => te.id == eid) = some te0 →
      te0.invoiceId ≠ none →
      ∃ te, tx.timeEntries.find? (fun te => te.id == eid) = some te ∧
        te.invoiceId ≠ none) →
    (∃ eid, eid ∈ ids ∧ ∃ te0,
      db0.timeEntries.find? (fun te => te.id == eid) = some te0 ∧
      te0.invoiceId ≠ none) →
    ∃ eid inum, markLoop db0 invId tx count ids =
      (db0, .error (.alreadyInvoiced eid inum)) := by
  intro ids
  induction ids with
  | nil => intro tx count _ hconf; obtain ⟨eid, hmem, _⟩ := hconf; cases hmem
  | cons i rest ih =>
    intro tx count hinv hconf
    cases hfi : tx.timeEntries.find? fun te => te.id == i with
    | none =>
      have hstep : markLoop db0 invId tx count (i :: rest) =
          markLoop db0 invId tx count rest := by
        simp only [markLoop, hfi]
      rw [hstep]
      apply ih tx count hinv
      obtain ⟨eid, hmem, te0, h0, hne⟩ := hconf
      rcases List.mem_cons.mp hmem with heq | hmem'
      · subst heq
        obtain ⟨te, hte, _⟩ := hinv eid te0 h0 hne
        rw [hfi] at hte; cases hte
      · exact ⟨eid, hmem', te0, h0, hne⟩
    | some te =>
      cases hti : te.invoiceId with
      | some cur =>
        refine ⟨i, invoiceNumberOfId tx cur, ?_⟩
        simp only [markLoop, hfi, hti]
      | none =>
        have hstep : markLoop db0 invId tx count (i :: rest) =
            markLoop db0 invId
              { tx with timeEntries := tx.timeEntries.map (markOne invId i) }
              (count + 1) rest := by
          simp only [markLoop, hfi, hti]
        rw [hstep]
        apply ih _ (count + 1)
        · intro eid te0 h0 hne
          obtain ⟨te', hte', hne'⟩ := hinv eid te0 h0 hne
          refine ⟨markOne invId i te', ?_, ?_⟩
          · show (tx.timeEntries.map (markOne invId i)).find?
              (fun te => te.id == eid) = some (markOne invId i te')
            rw [find?_map_markOne, hte']
            rfl
          · unfold markOne
            split
            · simp
            · exact hne'
        · obtain ⟨eid, hmem, te0, h0, hne⟩ := hconf
          rcases List.mem_cons.mp hmem with heq | hmem'
          · subst heq
            obtain ⟨te', hte', hne'⟩ := hinv eid te0 h0 hne
            rw [hfi] at hte'
            injection hte' with hte'
            subst hte'
            exact absurd hti hne'
          · exact ⟨eid, hmem', te0, h0, hne⟩

/-- When every batch id refers to an unbilled entry or to no entry at
all, the marking loop commits and counts exactly the ids whose entry
exists: missing ids are skipped silently. -/
theorem markLoop_clean {db0 : DB} {invId : Nat} :
    ∀ (ids : List String) (tx : DB) (count : Nat),
    ids.Nodup →
    (∀ eid, eid ∈ ids →
      ((tx.timeEntries.find? fun te => te.id == eid).isSome =
        (db0.timeEntries.find? fun te => te.id == eid).isSome) ∧
      (∀ te, tx.timeEntries.find? (fun te => te.id == eid) = some te →
        te.invoiceId = none)) →
    ∃ tx', markLoop db0 invId tx count ids =
      (tx', .ok (count + (ids.filter fun i =>
        (db0.timeEntries.find? fun te => te.id == i).isSome).length)) := by
  intro ids
  induction ids with
  | nil =>
    intro tx count _ _
    exact ⟨tx, by simp [markLoop]⟩
  | cons i rest ih =>
    intro tx count hnd hinv
    have hndr := (List.nodup_cons.mp hnd).2
    have hni : i ∉ rest := (List.nodup_cons.mp hnd).1
    cases hfi : tx.timeEntries.find? fun te => te.id == i with
    | none =>
      have hdbi : (db0.timeEntries.find? fun te => te.id == i).isSome = false := by
        rw [← (hinv i (List.mem_cons_self i rest)).1, hfi]
        rfl
      have hstep : markLoop db0 invId tx count (i :: rest) =
          markLoop db0 invId tx count rest := by
        simp only [markLoop, hfi]
      rw [hstep]
      obtain ⟨tx', htx'⟩ := ih tx count hndr
        (fun eid hmem => hinv eid (List.mem_cons_of_mem i hmem))
      refine ⟨tx', ?_⟩
      rw [htx']
      simp [List.filter_cons, hdbi]
    | some te =>
      have hte0 := (hinv i (List.mem_cons_self i rest)).2 te hfi
      have hdbi : (db0.timeEntries.find? fun te => te.id == i).isSome = true := by
        rw [← (hinv i (List.mem_cons_self i rest)).1, hfi]
        rfl
      have hstep : markLoop db0 invId tx count (i :: rest) =
          markLoop db0 invId
            { tx with timeEntries := tx.timeEntries.map (markOne invId i) }
            (count + 1) rest := by
        simp only [markLoop, hfi, hte0]
      rw [hstep]
      have hinvr : ∀ eid, eid ∈ rest →
          ((({ tx with timeEntries := tx.timeEntries.map (markOne invId i) } : DB).timeEntries.find?
              fun te => te.id == eid).isSome =
            (db0.timeEntries.find? fun te => te.id == eid).isSome) ∧
          (∀ te2, ({ tx with timeEntries := tx.timeEntries.map (markOne invId i) } : DB).timeEntries.find?
              (fun te => te.id == eid) = some te2 → te2.invoiceId = none) := by
        intro eid hmem
        have hne : eid ≠ i := fun h => hni (h ▸ hmem)
        have hmap : ({ tx with timeEntries := tx.timeEntries.map (markOne invId i) } : DB).timeEntries.find?
            (fun te => te.id == eid) = (tx.timeEntries.find? fun te => te.id == eid) := by
          show (tx.timeEntries.map (markOne invId i)).find? (fun te => te.id == eid) = _
          rw [find?_map_markOne]
          cases hf2 : tx.timeEntries.find? fun te => te.id == eid with
          | none => rfl
          | some te2 =>
            have hid2 : te2.id = eid := by
              have := List.find?_some hf2
              simpa using this
            have hkeep : markOne invId i te2 = te2 := by
              unfold markOne
              rw [if_neg (by simp only [hid2, beq_iff_eq]; exact hne)]
            simp [hkeep]
        constructor
        · rw [hmap]
          exact (hinv eid (List.mem_cons_of_mem i hmem)).1
        · intro te2 hte2
          rw [hmap] at hte2
          exact (hinv eid (List.mem_cons_of_mem i hmem)).2 te2 hte2
      obtain ⟨tx', htx'⟩ := ih _ (count + 1) hndr hinvr
      refine ⟨tx', ?_⟩
      rw [htx']
      have harith : count + 1 +
          (rest.filter fun i =>
            (db0.timeEntries.find? fun te => te.id == i).isSome).length =
          count + ((i :: rest).filter fun i =>
            (db0.timeEntries.find? fun te => te.id == i).isSome).length := by
        simp [List.filter_cons, hdbi]
        omega
      rw [harith]

/-- Claim C5: in `mark_time_entries_invoiced`, (1) if any batch id
names an entry already linked to a different invoice, the whole batch
fails with a conflict error and the transaction rolls back, returning
the store unchanged; (2) on a clean batch, ids that name no entry are
silently skipped — not an error — and the returned marked count is the
number of ids whose entry exists. -/
theorem claim_C5_mark_conflict_or_skip :
    (∀ (db : DB) (invoiceNumber : String) (entryIds : List String) (inv : Invoice),
      db.invoices.find? (fun i => i.invoiceNumber == invoiceNumber) = some inv →
      (∃ eid, eid ∈ entryIds ∧ ∃ te0 j,
        db.timeEntries.find? (fun te => te.id == eid) = some te0 ∧
        te0.invoiceId = some j ∧ j ≠ inv.id) →
      ∃ eid inum, markTimeEntriesInvoiced db invoiceNumber entryIds =
        (db, .error (.alreadyInvoiced eid inum))) ∧
    (∀ (db : DB) (invoiceNumber : String) (entryIds : List String) (inv : Invoice),
      entryIds ≠ [] → entryIds.Nodup →
      db.invoices.find? (fun i => i.invoiceNumber == invoiceNumber) = some inv →
      (∀ eid, eid ∈ entryIds → ∀ te,
        db.timeEntries.find? (fun te => te.id == eid) = some te →
        te.invoiceId = none) →
      ∃ db', markTimeEntriesInvoiced db invoiceNumber entryIds =
        (db', .ok ((entryIds.filter fun i =>
          (db.timeEntries.find? fun te => te.id == i).isSome).length))) := by
  constructor
  · intro db invoiceNumber entryIds inv hfind hconf
    have hne : entryIds ≠ [] := by
      obtain ⟨eid, hmem, _⟩ := hconf
      intro hnil; rw [hnil] at hmem; cases hmem
    unfold markTimeEntriesInvoiced
    rw [if_neg hne]
    simp only [hfind]
    apply markLoop_conflict entryIds db 0
    · intro eid te0 h0 hne0
      exact ⟨te0, h0, hne0⟩
    · obtain ⟨eid, hmem, te0, j, h0, hj, _⟩ := hconf
      exact ⟨eid, hmem, te0, h0, by rw [hj]; simp⟩
  · intro db invoiceNumber entryIds inv hne hnd hfind hclean
    unfold markTimeEntriesInvoiced
    rw [if_neg hne]
    simp only [hfind]
    obtain ⟨tx', htx'⟩ := markLoop_clean entryIds db 0 hnd
      (fun eid hmem => ⟨rfl, hclean eid hmem⟩)
    refine ⟨tx', ?_⟩
    rw [htx', Nat.zero_add]

/-- Witness for C5: marking entry "x" (already on INV-B) under INV-A
conflicts and leaves the store unchanged; marking ["y", "ghost"] under
INV-A succeeds with a count that excludes the nonexistent id. -/
theorem claim_C5_witness :
    (∃ eid inum, markTimeEntriesInvoiced exMarkDB "INV-A" ["x"] =
      (exMarkDB, .error (.alreadyInvoiced eid inum))) ∧
    (∃ db', markTimeEntriesInvoiced exMarkDB "INV-A" ["y", "ghost"] =
      (db', .ok ((["y", "ghost"].filter fun i =>
        (exMarkDB.timeEntries.find? fun te => te.id == i).isSome).length))) :=
  ⟨claim_C5_mark_conflict_or_skip.1 exMarkDB "INV-A" ["x"] exInvA rfl
      ⟨"x", by decide, exEntryX, 2, rfl, rfl, by decide⟩,
   claim_C5_mark_conflict_or_skip.2 exMarkDB "INV-A" ["y", "ghost"] exInvA
      (by decide) (by decide) rfl
      (by
        intro eid hmem te hte
        rcases List.mem_cons.mp hmem with h | h
        · subst h
          have h1 : some exEntryY = some te :=
            (rfl : exMarkDB.timeEntries.find? (fun te => te.id == "y") =
              some exEntryY).symm.trans hte
          injection h1 with h1
          rw [← h1]
          rfl
        · rcases List.mem_cons.mp h with h2 | h2
          · subst h2
            have h1 : (none : Option TimeEntry) = some te :=
              (rfl : exMarkDB.timeEntries.find? (fun te => te.id == "ghost") =
                none).symm.trans hte
            cases h1
          · cases h2)⟩

/-! ## Claim C6 -/

/-- Claim C6 is false on the code: for the non-active contract CN-2
(status "completed"), `add_hours` refuses to log hours, but
`bulk_add_hours` — which looks the contract up by number without any
status check — succeeds and inserts a time entry against it. -/
theorem claim_C6_counterexample :
    addHours exBulkDB "CN-2" 2 "" "dev" 0 "e9" =
      (exBulkDB, .error (.contractNotActive "CN-2" "completed")) ∧
    bulkAddHours exBulkDB [exBulkEntry] 0 exIdGen =
      ({ exBulkDB with timeEntries :=
          [{ id := "bulk-0", clientId := 1, contractId := 2, date := 0, hours := 2,
             description := "", contractRef := "CN-2", invoiceId := none }] },
        .ok 1) ∧
    exContractDone.status ≠ "active" :=
  ⟨rfl, rfl, by decide⟩

/-- Claim C6 (amended): only `add_hours` enforces the active-contract
rule — it fails with a not-active error and inserts nothing whenever
the named contract's status is not "active" — while `bulk_add_hours`
performs no status check at all: it inserts an entry for any existing
contract, whatever its status. -/
theorem claim_C6_active_check :
    (∀ (db : DB) (contractNumber : String) (hours : Rat) (dateStr desc : String)
       (now : Int) (newId : String) (ct : Contract) (cl : Client),
      db.contracts.find? (fun c => c.contractNumber == contractNumber) = some ct →
      db.clients.find? (fun c => c.id == ct.clientId) = some cl →
      ct.status ≠ "active" →
      addHours db contractNumber hours dateStr desc now newId =
        (db, .error (.contractNotActive contractNumber ct.status))) ∧
    (∀ (db : DB) (e : BulkEntry) (now : Int) (idGen : Nat → String)
       (cid : Nat) (ct : Contract) (date : Int),
      getClientIDByName db e.clientName = some cid →
      db.contracts.find? (fun c => c.contractNumber == e.contractRef) = some ct →
      (if e.date = "" then Except.ok now else parseDate e.date now) = .ok date →
      bulkAddHours db [e] now idGen =
        ({ db with timeEntries := db.timeEntries ++
            [{ id := idGen 0, clientId := cid, contractId := ct.id, date := date,
               hours := e.hours, description := e.description,
               contractRef := e.contractRef, invoiceId := none }] }, .ok 1)) := by
  constructor
  · intro db contractNumber hours dateStr desc now newId ct cl hct hcl hst
    unfold addHours
    simp only [hct, Option.some_bind, hcl, Option.map_some']
    rw [if_pos hst]
  · intro db e now idGen cid ct date hcid hct hdate
    unfold bulkAddHours
    rw [if_neg (by simp)]
    unfold bulkAddLoop
    simp only [hcid, hct, hdate]
    unfold bulkAddLoop
    rfl

/-- Witness for C6 (amended): the completed contract is rejected by
`add_hours` and accepted by `bulk_add_hours`. -/
theorem claim_C6_witness :
    addHours exBulkDB "CN-2" 2 "" "dev" 0 "e9" =
      (exBulkDB, .error (.contractNotActive "CN-2" "completed")) ∧
    bulkAddHours exBulkDB [exBulkEntry] 0 exIdGen =
      ({ exBulkDB with timeEntries := exBulkDB.timeEntries ++
          [{ id := exIdGen 0, clientId := 1, contractId := exContractDone.id,
             date := 0, hours := exBulkEntry.hours,
             description := exBulkEntry.description,
             contractRef := exBulkEntry.contractRef, invoiceId := none }] },
        .ok 1) :=
  ⟨claim_C6_active_check.1 exBulkDB "CN-2" 2 "" "dev" 0 "e9" exContractDone
      exClient rfl rfl (by decide),
   claim_C6_active_check.2 exBulkDB exBulkEntry 0 exIdGen 1 exContractDone 0
      rfl rfl rfl⟩

/-! ## Claim C9 -/

/-- After a successful migration run, every migration name is in the
log, and the log only grew. -/
theorem runMigrations_log_superset {σ : Type} :
    ∀ (migs : List (Migration σ)) (log : List String) (s : σ)
      (log' : List String) (s' : σ),
    runMigrations migs log s = .ok (log', s') →
    (∀ m ∈ migs, m.name ∈ log') ∧ (∀ x ∈ log, x ∈ log') := by
  intro migs
  induction migs with
  | nil =>
    intro log s log' s' h
    simp only [runMigrations] at h
    injection h with h
    injection h with h1 h2
    subst h1
    exact ⟨fun m hm => absurd hm (List.not_mem_nil m), fun x hx => hx⟩
  | cons m rest ih =>
    intro log s log' s' h
    simp only [runMigrations] at h
    split at h
    · rename_i hmem
      obtain ⟨h1, h2⟩ := ih log s log' s' h
      exact ⟨fun m2 hm2 => by
        rcases List.mem_cons.mp hm2 with he | hm2'
        · subst he; exact h2 _ hmem
        · exact h1 _ hm2', h2⟩
    · rename_i hmem
      split at h
      · cases h
      · rename_i s2 happ
        obtain ⟨h1, h2⟩ := ih _ _ _ _ h
        refine ⟨fun m2 hm2 => ?_, fun x hx => h2 _ (List.mem_append_left _ hx)⟩
        rcases List.mem_cons.mp hm2 with he | hm2'
        · subst he
          exact h2 _ (List.mem_append_right _ (List.mem_singleton_self _))
        · exact h1 _ hm2'

/-- A migration run over a log that already contains every migration
name is a complete no-op: the guard skips each migration. -/
theorem runMigrations_all_applied {σ : Type} :
    ∀ (migs : List (Migration σ)) (log : List String) (s : σ),
    (∀ m ∈ migs, m.name ∈ log) →
    runMigrations migs log s = .ok (log, s) := by
  intro migs
  induction migs with
  | nil => intro log s _; rfl
  | cons m rest ih =>
    intro log s hall
    simp only [runMigrations]
    rw [if_pos (hall m (List.mem_cons_self m rest))]
    exact ih log s fun m2 hm2 => hall m2 (List.mem_cons_of_mem m hm2)

/-- `find?` commutes with a map that preserves the predicate. -/
theorem find?_map_of_pred_eq {α : Type} (p : α → Bool) (f : α → α)
    (hf : ∀ a, p (f a) = p a) (l : List α) :
    (l.map f).find? p = (l.find? p).map f := by
  induction l with
  | nil => rfl
  | cons a l ih =>
    simp only [List.map_cons, List.find?_cons, hf]
    by_cases hpa : p a = true
    · simp [hpa]
    · simp [hpa, ih]

/-- `addColumnIfNotExists` is idempotent: a second application (when
the column then exists, or when the table is absent) changes nothing. -/
theorem addColumnIfNotExists_idem (tbl col ty : String) (s : MigStore) :
    addColumnIfNotExists tbl col ty (addColumnIfNotExists tbl col ty s) =
      addColumnIfNotExists tbl col ty s := by
  by_cases hex : columnExists s.tables tbl col = true
  · have h1 : addColumnIfNotExists tbl col ty s = s := by
      unfold addColumnIfNotExists
      rw [if_pos hex]
    rw [h1, h1]
  · cases hf : s.tables.find? fun t => t.1 == tbl with
    | none =>
      have hid : s.tables.map (fun t =>
          if t.1 == tbl then (t.1, t.2 ++ [col]) else t) = s.tables := by
        have : ∀ t ∈ s.tables, (if t.1 == tbl then (t.1, t.2 ++ [col]) else t) = t := by
          intro t ht
          rw [if_neg]
          intro hc
          have := List.find?_eq_none.mp hf t ht
          exact this hc
        calc s.tables.map (fun t => if t.1 == tbl then (t.1, t.2 ++ [col]) else t)
            = s.tables.map id := List.map_congr_left this
          _ = s.tables := List.map_id s.tables
      have h1 : addColumnIfNotExists tbl col ty s = s := by
        unfold addColumnIfNotExists
        rw [if_neg hex, hid]
      rw [h1, h1]
    | some t =>
      have h1 : addColumnIfNotExists tbl col ty s =
          { s with tables := s.tables.map fun t =>
              if t.1 == tbl then (t.1, t.2 ++ [col]) else t } := by
        unfold addColumnIfNotExists
        rw [if_neg hex]
      have hpt : (t.1 == tbl) = true := by
        have := List.find?_some hf
        simpa using this
      have hfmap := find?_map_of_pred_eq
        (fun t : String × List String => t.1 == tbl)
        (fun t : String × List String => if t.1 == tbl then (t.1, t.2 ++ [col]) else t)
        (fun a => by dsimp only; split <;> rfl) s.tables
      have hex2 : columnExists (s.tables.map fun t =>
          if t.1 == tbl then (t.1, t.2 ++ [col]) else t) tbl col = true := by
        unfold columnExists
        rw [hfmap, hf]
        simp only [Option.map_some']
        rw [if_pos hpt]
        simp [List.contains_iff_exists_mem_beq]
      rw [h1]
      unfold addColumnIfNotExists
      rw [if_pos hex2]

/-- Claim C9: migration application is idempotent — every migration is
guarded by the persisted log, so a second run over a successfully
migrated store (any store type, any migration list, the add-column
steps included) returns log and store unchanged; and the add-column
step itself is a no-op when the column already exists. -/
theorem claim_C9_migrations_idempotent :
    (∀ (σ : Type) (migs : List (Migration σ)) (log : List String) (s : σ)
       (log' : List String) (s' : σ),
      runMigrations migs log s = .ok (log', s') →
      runMigrations migs log' s' = .ok (log', s')) ∧
    (∀ (tbl col ty : String) (s : MigStore),
      columnExists s.tables tbl col = true →
      addColumnIfNotExists tbl col ty s = s) ∧
    (∀ (tbl col ty : String) (s : MigStore),
      addColumnIfNotExists tbl col ty (addColumnIfNotExists tbl col ty s) =
        addColumnIfNotExists tbl col ty s) := by
  refine ⟨?_, ?_, addColumnIfNotExists_idem⟩
  · intro σ migs log s log' s' h
    exact runMigrations_all_applied migs log' s'
      fun m hm => (runMigrations_log_superset migs log s log' s' h).1 m hm
  · intro tbl col ty s hex
    unfold addColumnIfNotExists
    rw [if_pos hex]

/-- Witness for C9: running the six concrete migrations of the source
over the pre-migration store and then running them again returns the
migrated store unchanged, and re-adding the `contract_ref` column to
the migrated store is a no-op. -/
theorem claim_C9_witness :
    runMigrations hoursMigrations exMigLog exMigStoreAfter =
      .ok (exMigLog, exMigStoreAfter) ∧
    addColumnIfNotExists "time_entries" "contract_ref" "TEXT" exMigStoreAfter =
      exMigStoreAfter :=
  ⟨claim_C9_migrations_idempotent.1 MigStore hoursMigrations [] exMigStore
      exMigLog exMigStoreAfter rfl,
   claim_C9_migrations_idempotent.2.1 "time_entries" "contract_ref" "TEXT"
      exMigStoreAfter rfl⟩

end HoursMCP
